import Mathlib

/-!
Shallow embedding of `src/src/App.tsx`: a single-page application that
fetches cryptocurrency market data and renders it in a paginated table.

Pure computations of the source (request-URL construction, the table
column renderers, the query-state mutators, initial state and hook
parameter defaults) are translated directly from the TypeScript source.
The `swr` request library is an external collaborator whose keyed-cache
semantics (request deduplication by key, `keepPreviousData`, no state
change on error) the source relies on through its configuration; those
semantics are modelled explicitly as a small state machine.

JavaScript strings are modelled as `String`; a JavaScript value that a
cell renderer receives is modelled by `CellValue`: either absent
(`null`/`undefined`) or present, carried as the string form that
`toString()` would produce for it.  `toUpperCase()` is modelled as a
character map with `Char.toUpper` (the source only applies it to ASCII
coin symbols and decimal/exponent numerals, where basic-latin
uppercasing coincides with the JavaScript behavior).
-/

namespace CoinsApp

/-- Currency codes, source line 42: `type Currency = 'usd' | 'eur'`. -/
inductive Currency where
  | usd : Currency
  | eur : Currency
  deriving DecidableEq

/-- The lowercase code of a currency, exactly the string the source
interpolates into URLs and into the Price cells. -/
def Currency.code : Currency → String
  | Currency.usd => "usd"
  | Currency.eur => "eur"

/-- Orderings, source line 49: `type Order = 'market_cap_desc' | 'market_cap_asc'`. -/
inductive Order where
  | market_cap_desc : Order
  | market_cap_asc : Order
  deriving DecidableEq

/-- The string form of an ordering, as interpolated into URLs. -/
def Order.code : Order → String
  | Order.market_cap_desc => "market_cap_desc"
  | Order.market_cap_asc => "market_cap_asc"

/-- Source lines 44-47: `interface CurrencyOption`. -/
structure CurrencyOption where
  value : Currency
  label : String
  deriving DecidableEq

/-- Source lines 51-54: `interface OrderOption`. -/
structure OrderOption where
  value : Order
  label : String
  deriving DecidableEq

/-- Source line 56: `const PAGINATION_TOTAL = 10000`. -/
def PAGINATION_TOTAL : Nat := 10000

/-- Source line 57: `const PAGE_SIZE_OPTIONS = [5, 10, 20, 50, 100]`. -/
def PAGE_SIZE_OPTIONS : List Nat := [5, 10, 20, 50, 100]

/-- Source lines 58-61: `const CURRENCY_OPTIONS`. -/
def CURRENCY_OPTIONS : List CurrencyOption :=
  [⟨Currency.usd, "USD"⟩, ⟨Currency.eur, "EUR"⟩]

/-- Source lines 63-66: `const ORDER_OPTIONS`. -/
def ORDER_OPTIONS : List OrderOption :=
  [⟨Order.market_cap_desc, "Market cap descending"⟩,
   ⟨Order.market_cap_asc, "Market cap ascending"⟩]

/-- A JavaScript value reaching a cell renderer: absent (`null` or
`undefined`) or present, abstracted to the string form `toString()`
yields for it.  The TypeScript `Coin` interface declares most fields
non-nullable, but TypeScript types are not enforced on API responses at
runtime, so the embedding keeps absence representable for every field
the renderers touch. -/
inductive CellValue where
  | absent : CellValue
  | val : String → CellValue
  deriving DecidableEq

/-- Source lines 13-40: `interface Coin`.  `id`, `symbol` and `name` are
the fields the spec's data-model invariant guarantees present; every
other field is a `CellValue`. -/
structure Coin where
  id : String
  symbol : String
  name : String
  image : CellValue
  current_price : CellValue
  market_cap : CellValue
  market_cap_rank : CellValue
  fully_diluted_valuation : CellValue
  total_volume : CellValue
  high_24h : CellValue
  low_24h : CellValue
  price_change_24h : CellValue
  price_change_percentage_24h : CellValue
  market_cap_change_24h : CellValue
  market_cap_change_percentage_24h : CellValue
  circulating_supply : CellValue
  total_supply : CellValue
  max_supply : CellValue
  ath : CellValue
  ath_change_percentage : CellValue
  ath_date : CellValue
  atl : CellValue
  atl_change_percentage : CellValue
  atl_date : CellValue
  roi : CellValue
  last_updated : CellValue
  deriving DecidableEq

/-- Outcome of the underlying `axios.get(url)` call: a parsed response
body (the list of coin records) on HTTP success, or a failure (network
error or non-success HTTP status, which axios raises as an exception). -/
inductive FetchOutcome where
  | success : List Coin → FetchOutcome
  | failure : FetchOutcome

/-- What one invocation of the source's `fetcher` produces: the value it
returns or the exception it re-throws, together with the list of toast
notifications it emits. -/
structure FetchResult where
  result : Except Unit (List Coin)
  toasts : List String

/-- Source lines 68-76: `fetcher` returns `response.data` on success; on
failure it emits one `toast.error('Error fetching data')` and re-throws
the error. -/
def fetcher (_url : String) (outcome : FetchOutcome) : FetchResult :=
  match outcome with
  | FetchOutcome.success d => ⟨Except.ok d, []⟩
  | FetchOutcome.failure => ⟨Except.error (), ["Error fetching data"]⟩

/-- Source lines 78-85: `interface GetCoinsHookParams`; `sparkline` and
`enabled` are optional (`none` models omission at the call site). -/
structure GetCoinsHookParams where
  currency : Currency
  order : Order
  perPage : Nat
  page : Nat
  sparkline : Option Bool
  enabled : Option Bool
  deriving DecidableEq

/-- Source line 87: destructuring default `enabled = true`. -/
def resolveEnabled (p : GetCoinsHookParams) : Bool :=
  p.enabled.getD true

/-- Source line 87: destructuring default `sparkline = false`. -/
def resolveSparkline (p : GetCoinsHookParams) : Bool :=
  p.sparkline.getD false

/-- Source line 88: the fixed endpoint. -/
def baseUrl : String := "https://api.coingecko.com/api/v3/coins/markets"

/-- JavaScript template interpolation of a boolean. -/
def boolCode : Bool → String
  | true => "true"
  | false => "false"

/-- Source line 90: the `apiUrl` template string built inside
`useGetCoins`, after the destructuring defaults have been applied. -/
def apiUrl (currency : Currency) (order : Order) (perPage page : Nat) (sparkline : Bool) : String :=
  baseUrl ++ "?vs_currency=" ++ currency.code ++ "&order=" ++ order.code ++
    "&per_page=" ++ toString perPage ++ "&page=" ++ toString page ++
    "&sparkline=" ++ boolCode sparkline

/-- Source line 92: the key handed to `useSWR` is `enabled ? apiUrl : null`;
a `none` key means no request is associated with this render. -/
def swrKey (p : GetCoinsHookParams) : Option String :=
  if resolveEnabled p then
    some (apiUrl p.currency p.order p.perPage p.page (resolveSparkline p))
  else
    none

/-- Modelled from the spec: the state of the `swr` request library's
keyed cache (the library itself is an external dependency, not under
`src/`).  `cache` maps request keys to the data of their last successful
fetch; `inflight` lists keys with an outstanding request. -/
structure SWRState where
  cache : List (String × List Coin)
  inflight : List String
  deriving DecidableEq

/-- Modelled from the spec: lookup of a key's cached data (first match). -/
def lookupCache : List (String × List Coin) → String → Option (List Coin)
  | [], _ => none
  | (k, d) :: rest, u => if k = u then some d else lookupCache rest u

/-- Modelled from the spec: request issuance with deduplication.  A
`none` key issues nothing; a key that is already in flight is deduped
(no second concurrent request); otherwise the key is marked in flight
and one request is issued.  The returned boolean says whether a network
call was actually issued. -/
def requestCoins (s : SWRState) (key : Option String) : SWRState × Bool :=
  match key with
  | none => (s, false)
  | some k =>
      if k ∈ s.inflight then (s, false)
      else ({ s with inflight := k :: s.inflight }, true)

/-- Settlement of an in-flight request for a key: success with a parsed
body, or failure. -/
inductive SWREvent where
  | success : String → List Coin → SWREvent
  | failure : String → SWREvent

/-- Modelled from the spec: settling a request.  Success stores the data
under its key; failure changes no cached data (the previous or empty
data stays visible). -/
def swrStep (s : SWRState) (e : SWREvent) : SWRState :=
  match e with
  | SWREvent.success k d => { cache := (k, d) :: s.cache, inflight := s.inflight.erase k }
  | SWREvent.failure k => { s with inflight := s.inflight.erase k }

/-- Modelled from the spec: the `data` value `useSWR` returns for the
current key under `keepPreviousData: true` — the key's cached data if
any, otherwise the data last returned for the previous key (`prev`),
kept visible while the new key's fetch is in flight. -/
def swrData (s : SWRState) (key : String) (prev : Option (List Coin)) : Option (List Coin) :=
  match lookupCache s.cache key with
  | some d => some d
  | none => prev

/-- Source line 98: `const coins: Coin[] = data ? data : []`. -/
def hookCoins (d : Option (List Coin)) : List Coin :=
  match d with
  | some coins => coins
  | none => []

/-- Source lines 104-107: the four `useState` initial values; currency
and order are taken from the head of the option lists. -/
structure AppState where
  page : Nat
  pageSize : Nat
  currency : Currency
  order : Order
  deriving DecidableEq

/-- Source lines 104-107: `useState(1)`, `useState(10)`,
`useState(CURRENCY_OPTIONS[0].value)`, `useState(ORDER_OPTIONS[0].value)`. -/
def initialAppState : AppState :=
  { page := 1
    pageSize := 10
    currency := (CURRENCY_OPTIONS.get ⟨0, by decide⟩).value
    order := (ORDER_OPTIONS.get ⟨0, by decide⟩).value }

/-- Source lines 109-114: the `App` component calls `useGetCoins` with
currency, order, perPage and page only; `sparkline` and `enabled` are
omitted. -/
def appHookParams (s : AppState) : GetCoinsHookParams :=
  { currency := s.currency
    order := s.order
    perPage := s.pageSize
    page := s.page
    sparkline := none
    enabled := none }

/-- Source line 154: `(value) => setCurrency(value)`. -/
def handleChangeCurrency (value : Currency) (s : AppState) : AppState :=
  { s with currency := value }

/-- Source line 155: `(value) => setOrder(value)`. -/
def handleChangeOrder (value : Order) (s : AppState) : AppState :=
  { s with order := value }

/-- Source line 156: `(_, value) => setPageSize(value)`; the first
argument is ignored. -/
def handlePageSizeChange (_x : Nat) (value : Nat) (s : AppState) : AppState :=
  { s with pageSize := value }

/-- Source line 157: `(page) => setPage(page)`. -/
def handlePageChange (page : Nat) (s : AppState) : AppState :=
  { s with page := page }

/-- JavaScript `toUpperCase()`, as a character map (basic latin). -/
def jsToUpperCase (s : String) : String :=
  String.mk (s.data.map Char.toUpper)

/-- Calling `toString()` on a JavaScript value: returns its string form,
but throws a `TypeError` on `null`/`undefined`. -/
def jsToString : CellValue → Except Unit String
  | CellValue.absent => Except.error ()
  | CellValue.val s => Except.ok s

/-- Source line 132, the Symbol column: `(text) => text.toUpperCase()`;
`symbol` is a guaranteed-present string. -/
def symbolRender (text : String) : String :=
  jsToUpperCase text

/-- Source line 138, the Price column:
`(text) => `${text.toString().toUpperCase()} ${currency}``.  The
`toString()` call throws when the price is absent. -/
def priceRender (v : CellValue) (currency : String) : Except Unit String :=
  (jsToString v).map (fun t => jsToUpperCase t ++ " " ++ currency)

/-- Source line 121, the Image column: an `<Image src={text}>` element;
a missing `src` just shows the placeholder, it never throws.  The cell
is abstracted to the `src` string that is passed down. -/
def imageRender (v : CellValue) : String :=
  match v with
  | CellValue.absent => ""
  | CellValue.val s => s

/-- Columns without a custom `render` (Name, Market Cap, Circulating
Supply): the table displays the value itself, blank when absent, never
throwing. -/
def defaultCellRender (v : CellValue) : String :=
  match v with
  | CellValue.absent => ""
  | CellValue.val s => s

/-- One table row, source lines 116-152: the six columns in source
order (Image, Name, Symbol, Price, Market Cap, Circulating Supply).
The only renderer that can throw is the Price column's. -/
def renderRow (currency : String) (c : Coin) : Except Unit (List String) :=
  (priceRender c.current_price currency).map (fun price =>
    [imageRender c.image, c.name, symbolRender c.symbol, price,
     defaultCellRender c.market_cap, defaultCellRender c.circulating_supply])

/-- Source line 193: the table body rendered from `dataSource={coins}`,
one row per coin record. -/
def tableRows (currency : String) (coins : List Coin) : Except Unit (List (List String)) :=
  coins.mapM (renderRow currency)

/-- The request URL as the spec's §6 template words it:
`{endpoint}?vs_currency={currency}&order={order}&per_page={perPage}&page={page}&sparkline={bool}`. -/
def specRequestUrl (p : GetCoinsHookParams) : String :=
  baseUrl ++ "?vs_currency=" ++ Currency.code p.currency ++
    "&order=" ++ Order.code p.order ++
    "&per_page=" ++ toString p.perPage ++
    "&page=" ++ toString p.page ++
    "&sparkline=" ++ boolCode (resolveSparkline p)

/-- A coin record with the three guaranteed fields present, a given
price cell, and every other field absent. -/
def mkTestCoin (price : CellValue) : Coin :=
  ⟨"bitcoin", "btc", "Bitcoin", CellValue.absent, price,
   CellValue.absent, CellValue.absent, CellValue.absent, CellValue.absent,
   CellValue.absent, CellValue.absent, CellValue.absent, CellValue.absent,
   CellValue.absent, CellValue.absent, CellValue.absent, CellValue.absent,
   CellValue.absent, CellValue.absent, CellValue.absent, CellValue.absent,
   CellValue.absent, CellValue.absent, CellValue.absent, CellValue.absent,
   CellValue.absent⟩

/-- Characterization of `Char.isLower` through `Char.toNat`. -/
theorem isLower_eq_toNat (c : Char) : c.isLower = (97 ≤ c.toNat && c.toNat ≤ 122) := by
  simp [Char.isLower, Char.toNat, UInt32.le_def, BitVec.le_def, UInt32.toNat]

/-- `Char.ofNat` of a valid scalar value has that value. -/
theorem toNat_ofNat_of_valid (n : Nat) (h : n.isValidChar) : (Char.ofNat n).toNat = n := by
  rw [Char.ofNat, dif_pos h]
  rfl

/-- Uppercasing a character never yields a lowercase letter. -/
theorem toUpper_isLower_false (c : Char) : c.toUpper.isLower = false := by
  unfold Char.toUpper
  by_cases h : c.toNat ≥ 97 ∧ c.toNat ≤ 122
  · rw [if_pos h]
    have hv : (c.toNat - 32).isValidChar := by
      left
      omega
    rw [isLower_eq_toNat, toNat_ofNat_of_valid _ hv]
    simp
    omega
  · rw [if_neg h]
    rw [isLower_eq_toNat]
    simp
    omega

/-- Claim C1: for every request issued by the fetcher, if the request
fails, exactly one transient notification with the text
"Error fetching data" is emitted for that failed request, the failure is
re-thrown to the caller, and the displayed coin list (for any current
key and any previously shown data) is unchanged by the failed
settlement. -/
theorem failed_fetch_emits_one_toast_and_keeps_coins (url : String) (s : SWRState)
    (k key : String) (prev : Option (List Coin)) :
    (fetcher url FetchOutcome.failure).toasts = ["Error fetching data"] ∧
    (fetcher url FetchOutcome.failure).result = Except.error () ∧
    hookCoins (swrData (swrStep s (SWREvent.failure k)) key prev) =
      hookCoins (swrData s key prev) :=
  ⟨rfl, rfl, rfl⟩

/-- Claim C2: while a fetch for tuple T2's key is in flight and the last
successfully returned data `d1` belongs to T1, the hook keeps returning
`d1` (it is never cleared to the empty list) until T2's fetch settles;
and a key already in flight never issues a duplicate concurrent
request. -/
theorem stale_data_kept_while_revalidating (s : SWRState) (k2 : String) (d1 : List Coin)
    (hin : k2 ∈ s.inflight) (hmiss : lookupCache s.cache k2 = none) :
    hookCoins (swrData s k2 (some d1)) = d1 ∧
    requestCoins s (some k2) = (s, false) := by
  constructor
  · simp [swrData, hmiss, hookCoins]
  · simp [requestCoins, hin]

/-- Concrete cache state for the C2 witness: T1's key holds data, T2's
key is in flight and not yet cached. -/
def swrStateTwoTuples : SWRState :=
  { cache := [("k1", [mkTestCoin (CellValue.val "42000.5")])]
    inflight := ["k2"] }

/-- Witness for claim C2 at a concrete state. -/
theorem stale_data_kept_while_revalidating_holds :
    "k2" ∈ swrStateTwoTuples.inflight ∧
    lookupCache swrStateTwoTuples.cache "k2" = none ∧
    hookCoins (swrData swrStateTwoTuples "k2" (some [mkTestCoin (CellValue.val "42000.5")])) =
      [mkTestCoin (CellValue.val "42000.5")] ∧
    requestCoins swrStateTwoTuples (some "k2") = (swrStateTwoTuples, false) :=
  have h := stale_data_kept_while_revalidating swrStateTwoTuples "k2"
    [mkTestCoin (CellValue.val "42000.5")] (by decide) (by decide)
  ⟨by decide, by decide, h.1, h.2⟩

/-- Claim C3, counterexample: the Price render applies `toUpperCase()`
to the price's string form, so a coin whose `current_price` is
`0.0000001` (JavaScript string form "1e-7") renders as "1E-7 usd", not
as the claimed "{price} {currency}" = "1e-7 usd". -/
theorem price_render_uppercases_exponent :
    priceRender (CellValue.val "1e-7") "usd" = Except.ok "1E-7 usd" ∧
    "1E-7 usd" ≠ "1e-7 usd" :=
  ⟨rfl, by decide⟩

/-- Claim C3 (amended): for every coin record whose price string is
unchanged by uppercasing (every plain decimal numeral is) and every
selected currency, the Price column renders "{price} {currency}": the
price string, a space, and the lowercase currency code. -/
theorem price_render_formats (p currency : String) (hp : jsToUpperCase p = p) :
    priceRender (CellValue.val p) currency = Except.ok (p ++ " " ++ currency) := by
  simp [priceRender, jsToString, Except.map, hp]

/-- Witness for the amended claim C3 at the spec's own example. -/
theorem price_render_formats_holds :
    jsToUpperCase "42000.5" = "42000.5" ∧
    priceRender (CellValue.val "42000.5") "usd" = Except.ok ("42000.5" ++ " " ++ "usd") :=
  ⟨by decide, price_render_formats "42000.5" "usd" (by decide)⟩

/-- Claim C4, counterexample: a coin record with every field other than
identifier, symbol and name absent makes the row renderer raise — the
Price column calls `toString()` on the absent `current_price`, which
throws — so the cell renderers are not total on nullable inputs. -/
theorem render_row_missing_price_raises :
    renderRow "usd" (mkTestCoin CellValue.absent) = Except.error () :=
  rfl

/-- Claim C4 (amended): for every coin record whose `current_price` is
present, all six table columns render without raising an error, however
many of the remaining nullable fields are absent; a record with an
absent `current_price` makes the Price renderer throw. -/
theorem render_row_total_with_price (currency p : String) (c : Coin)
    (hp : c.current_price = CellValue.val p) :
    renderRow currency c = Except.ok
      [imageRender c.image, c.name, symbolRender c.symbol,
       jsToUpperCase p ++ " " ++ currency,
       defaultCellRender c.market_cap, defaultCellRender c.circulating_supply] := by
  simp [renderRow, priceRender, hp, jsToString, Except.map]

/-- Witness for the amended claim C4: a coin with a present price and
every other nullable field absent renders all six columns. -/
theorem render_row_total_with_price_holds :
    (mkTestCoin (CellValue.val "42000.5")).current_price = CellValue.val "42000.5" ∧
    renderRow "usd" (mkTestCoin (CellValue.val "42000.5")) = Except.ok
      [imageRender (mkTestCoin (CellValue.val "42000.5")).image,
       (mkTestCoin (CellValue.val "42000.5")).name,
       symbolRender (mkTestCoin (CellValue.val "42000.5")).symbol,
       jsToUpperCase "42000.5" ++ " " ++ "usd",
       defaultCellRender (mkTestCoin (CellValue.val "42000.5")).market_cap,
       defaultCellRender (mkTestCoin (CellValue.val "42000.5")).circulating_supply] :=
  ⟨rfl, render_row_total_with_price "usd" "42000.5" (mkTestCoin (CellValue.val "42000.5")) rfl⟩

/-- Claim C5: the Symbol column renders the symbol string fully
uppercased — the render is exactly `toUpperCase()`, no character of the
output is a lowercase letter, and the spec's example "btc" renders as
"BTC". -/
theorem symbol_render_uppercases (s : String) :
    symbolRender s = jsToUpperCase s ∧
    (∀ c ∈ (symbolRender s).data, c.isLower = false) ∧
    symbolRender "btc" = "BTC" := by
  refine ⟨rfl, ?_, by decide⟩
  intro c hc
  simp only [symbolRender, jsToUpperCase, List.mem_map] at hc
  obtain ⟨a, _, rfl⟩ := hc
  exact toUpper_isLower_false a

/-- Claim C6: for every enabled parameter tuple, the request URL the
hook hands to the request library is the fixed endpoint followed by
`?vs_currency={currency}&order={order}&per_page={perPage}&page={page}&sparkline={bool}`,
interpolated in exactly that order (stated as equality with
`specRequestUrl`, the spec's template). -/
theorem request_url_matches_template (p : GetCoinsHookParams)
    (hen : resolveEnabled p = true) :
    swrKey p = some (specRequestUrl p) := by
  simp [swrKey, hen, apiUrl, specRequestUrl]

/-- Concrete enabled parameter tuple for the C6 witness. -/
def enabledSampleParams : GetCoinsHookParams :=
  ⟨Currency.eur, Order.market_cap_asc, 20, 3, some true, some true⟩

/-- Witness for claim C6 at a concrete tuple, with the template
evaluated to the literal URL. -/
theorem request_url_matches_template_holds :
    resolveEnabled enabledSampleParams = true ∧
    swrKey enabledSampleParams = some (specRequestUrl enabledSampleParams) ∧
    specRequestUrl enabledSampleParams =
      "https://api.coingecko.com/api/v3/coins/markets?vs_currency=eur&order=market_cap_asc&per_page=20&page=3&sparkline=true" :=
  ⟨by decide, request_url_matches_template enabledSampleParams (by decide), by decide⟩

/-- Claim C7: each of the three mutators for currency, ordering and page
size writes only its own field; in particular the page number is left
unchanged (never reset to 1 nor clamped). -/
theorem mutators_write_only_their_field (s : AppState) (c : Currency) (o : Order) (x sz : Nat) :
    (handleChangeCurrency c s).page = s.page ∧
    (handleChangeCurrency c s).pageSize = s.pageSize ∧
    (handleChangeCurrency c s).order = s.order ∧
    (handleChangeCurrency c s).currency = c ∧
    (handleChangeOrder o s).page = s.page ∧
    (handleChangeOrder o s).pageSize = s.pageSize ∧
    (handleChangeOrder o s).currency = s.currency ∧
    (handleChangeOrder o s).order = o ∧
    (handlePageSizeChange x sz s).page = s.page ∧
    (handlePageSizeChange x sz s).currency = s.currency ∧
    (handlePageSizeChange x sz s).order = s.order ∧
    (handlePageSizeChange x sz s).pageSize = sz :=
  ⟨rfl, rfl, rfl, rfl, rfl, rfl, rfl, rfl, rfl, rfl, rfl, rfl⟩

/-- Claim C8: a disabled parameter tuple has a `none` request key and
issues no network call; and per unique enabled key, a call is issued
exactly when the key is not already in flight, after which the key is in
flight, so a duplicate for the same tuple is never issued. -/
theorem disabled_or_duplicate_issues_no_request (p : GetCoinsHookParams) (s : SWRState)
    (k : String) (hdis : resolveEnabled p = false) :
    swrKey p = none ∧
    requestCoins s (swrKey p) = (s, false) ∧
    ((requestCoins s (some k)).snd = true ↔ k ∉ s.inflight) ∧
    k ∈ (requestCoins s (some k)).fst.inflight := by
  have hk : swrKey p = none := by simp [swrKey, hdis]
  refine ⟨hk, ?_, ?_, ?_⟩
  · rw [hk]
    rfl
  · by_cases hmem : k ∈ s.inflight
    · simp [requestCoins, hmem]
    · simp [requestCoins, hmem]
  · by_cases hmem : k ∈ s.inflight
    · simp [requestCoins, hmem]
    · simp [requestCoins, hmem]

/-- Concrete disabled parameter tuple for the C8 witness. -/
def disabledSampleParams : GetCoinsHookParams :=
  ⟨Currency.usd, Order.market_cap_desc, 10, 1, none, some false⟩

/-- Witness for claim C8 at a concrete disabled tuple and empty cache
state. -/
theorem disabled_or_duplicate_issues_no_request_holds :
    resolveEnabled disabledSampleParams = false ∧
    (swrKey disabledSampleParams = none ∧
      requestCoins ⟨[], []⟩ (swrKey disabledSampleParams) = (⟨[], []⟩, false) ∧
      ((requestCoins ⟨[], []⟩ (some "k")).snd = true ↔ "k" ∉ (⟨[], []⟩ : SWRState).inflight) ∧
      "k" ∈ (requestCoins ⟨[], []⟩ (some "k")).fst.inflight) :=
  ⟨by decide, disabled_or_duplicate_issues_no_request disabledSampleParams ⟨[], []⟩ "k" (by decide)⟩

/-- Claim C9: with no data yet fetched the hook returns the empty coin
list; a successful response with an empty body yields the empty coin
list; and the table renders zero rows for it, without error. -/
theorem empty_data_gives_empty_table (s : SWRState) (k : String)
    (prev : Option (List Coin)) (currency : String)
    (hfresh : lookupCache s.cache k = none) :
    hookCoins (swrData s k none) = [] ∧
    swrData (swrStep s (SWREvent.success k [])) k prev = some [] ∧
    hookCoins (swrData (swrStep s (SWREvent.success k [])) k prev) = [] ∧
    tableRows currency [] = Except.ok [] := by
  refine ⟨?_, ?_, ?_, rfl⟩
  · simp [swrData, hfresh, hookCoins]
  · simp [swrData, swrStep, lookupCache]
  · simp [swrData, swrStep, lookupCache, hookCoins]

/-- Witness for claim C9 at the empty cache state. -/
theorem empty_data_gives_empty_table_holds :
    lookupCache (⟨[], []⟩ : SWRState).cache "k" = none ∧
    (hookCoins (swrData ⟨[], []⟩ "k" none) = [] ∧
      swrData (swrStep ⟨[], []⟩ (SWREvent.success "k" [])) "k" none = some [] ∧
      hookCoins (swrData (swrStep ⟨[], []⟩ (SWREvent.success "k" [])) "k" none) = [] ∧
      tableRows "usd" [] = Except.ok []) :=
  ⟨by decide, empty_data_gives_empty_table ⟨[], []⟩ "k" none "usd" (by decide)⟩

/-- Claim C10: on initial mount the query state is page 1, page size 10,
currency "usd", order "market_cap_desc"; the omitted hook parameters
default to enabled and no sparkline; and the first request URL asks for
page 1 of 10 USD market-cap-descending records with sparkline=false. -/
theorem initial_mount_request :
    initialAppState.page = 1 ∧
    initialAppState.pageSize = 10 ∧
    initialAppState.currency = Currency.usd ∧
    initialAppState.order = Order.market_cap_desc ∧
    (appHookParams initialAppState).sparkline = none ∧
    (appHookParams initialAppState).enabled = none ∧
    resolveEnabled (appHookParams initialAppState) = true ∧
    resolveSparkline (appHookParams initialAppState) = false ∧
    swrKey (appHookParams initialAppState) =
      some "https://api.coingecko.com/api/v3/coins/markets?vs_currency=usd&order=market_cap_desc&per_page=10&page=1&sparkline=false" := by
  refine ⟨rfl, rfl, rfl, rfl, rfl, rfl, rfl, rfl, ?_⟩
  decide

end CoinsApp
